import Mathlib

/-!
Verification of the inventory/invoice consistency core of DarbarBootsPro.

The Python source (billing/models.py, retailapp/models.py, items/models.py,
core/inventory_manager.py) is shallowly embedded here:

* `Decimal` money values are embedded as `ℚ`.  `Decimal.quantize(Decimal('0.01'),
  rounding=ROUND_HALF_UP)` is `q2up`, and `Decimal.quantize(Decimal('0.01'))`
  (Python's default context rounding, ROUND_HALF_EVEN) is `q2even`.
* Django model rows become structures; querysets filtered on `is_active` become
  list filters; `aggregate(Sum(...))` becomes a list sum.
* The `InventoryManager` static methods become state-passing functions over a
  `Store` (item rows plus an append-only `StockMovement` list).  A Django
  `save(update_fields=['quantity'])` on a model instance writes the instance's
  own (possibly stale) quantity back to the row, which the embedding reproduces
  by carrying the phase-1 snapshot into phase 2.
-/

namespace DarbarBoots

/-- Rounding of a rational to an integer the way Python `Decimal` rounds with
`ROUND_HALF_UP`: ties go away from zero. -/
def roundHalfUp (q : ℚ) : ℤ :=
  if 0 ≤ q then ⌊q + 1/2⌋ else -⌊-q + 1/2⌋

/-- Rounding of a rational to an integer the way Python `Decimal` rounds with
its default context rounding `ROUND_HALF_EVEN`: ties go to the even neighbour. -/
def roundHalfEven (q : ℚ) : ℤ :=
  if q - (⌊q⌋ : ℚ) < 1/2 then ⌊q⌋
  else if (1 : ℚ)/2 < q - (⌊q⌋ : ℚ) then ⌊q⌋ + 1
  else if ⌊q⌋ % 2 = 0 then ⌊q⌋ else ⌊q⌋ + 1

/-- `x.quantize(Decimal('0.01'), rounding=ROUND_HALF_UP)`. -/
def q2up (q : ℚ) : ℚ := (roundHalfUp (100 * q) : ℚ) / 100

/-- `x.quantize(Decimal('0.01'))` with the default context rounding
(`ROUND_HALF_EVEN`). -/
def q2even (q : ℚ) : ℚ := (roundHalfEven (100 * q) : ℚ) / 100

/-- Python `int(x)` on a `Decimal`: truncation toward zero. -/
def truncQ (q : ℚ) : ℤ := if 0 ≤ q then ⌊q⌋ else -⌊-q⌋

/-- A rational is representable with exactly two decimal places (the value
space of a Django `DecimalField(decimal_places=2)` column). -/
def is2dp (q : ℚ) : Prop := (100 * q).den = 1

instance (q : ℚ) : Decidable (is2dp q) := by unfold is2dp; infer_instance

theorem is2dp_iff (q : ℚ) : is2dp q ↔ ∃ n : ℤ, q = (n : ℚ) / 100 := by
  constructor
  · intro h
    refine ⟨(100 * q).num, ?_⟩
    have h1 : ((100 * q).num : ℚ) = 100 * q := by
      rw [← Rat.den_eq_one_iff]; exact h
    have : (100 : ℚ) ≠ 0 := by norm_num
    field_simp [h1]
  · rintro ⟨n, rfl⟩
    unfold is2dp
    have : (100 : ℚ) * ((n : ℚ) / 100) = (n : ℚ) := by
      field_simp
    rw [this]
    exact Rat.den_intCast n

theorem is2dp_add {a b : ℚ} (ha : is2dp a) (hb : is2dp b) : is2dp (a + b) := by
  rw [is2dp_iff] at *
  obtain ⟨m, rfl⟩ := ha
  obtain ⟨n, rfl⟩ := hb
  exact ⟨m + n, by push_cast; ring⟩

theorem is2dp_neg {a : ℚ} (ha : is2dp a) : is2dp (-a) := by
  rw [is2dp_iff] at *
  obtain ⟨m, rfl⟩ := ha
  exact ⟨-m, by push_cast; ring⟩

theorem is2dp_sub {a b : ℚ} (ha : is2dp a) (hb : is2dp b) : is2dp (a - b) := by
  rw [sub_eq_add_neg]; exact is2dp_add ha (is2dp_neg hb)

theorem is2dp_zero : is2dp 0 := by
  rw [is2dp_iff]; exact ⟨0, by norm_num⟩

theorem is2dp_max {a b : ℚ} (ha : is2dp a) (hb : is2dp b) : is2dp (max a b) := by
  rcases max_cases a b with ⟨h, _⟩ | ⟨h, _⟩ <;> rw [h] <;> assumption

theorem is2dp_sum {l : List ℚ} (h : ∀ x ∈ l, is2dp x) : is2dp l.sum := by
  induction l with
  | nil => simpa using is2dp_zero
  | cons a t ih =>
      rw [List.sum_cons]
      exact is2dp_add (h a (List.mem_cons_self a t))
        (ih fun x hx => h x (List.mem_cons_of_mem a hx))

theorem roundHalfEven_intCast (n : ℤ) : roundHalfEven (n : ℚ) = n := by
  unfold roundHalfEven
  rw [Int.floor_intCast]
  have : (n : ℚ) - (n : ℚ) = 0 := by ring
  rw [this]
  norm_num

theorem roundHalfUp_intCast (n : ℤ) : roundHalfUp (n : ℚ) = n := by
  unfold roundHalfUp
  have h1 : ((n : ℚ) + 1/2) = (1/2 : ℚ) + (n : ℚ) := by ring
  have h2 : ((-(n : ℚ)) + 1/2) = (1/2 : ℚ) + ((-n : ℤ) : ℚ) := by push_cast; ring
  have hf : ⌊(1 : ℚ)/2⌋ = 0 := by
    rw [Int.floor_eq_zero_iff]
    constructor <;> norm_num
  split
  · rw [h1, Int.floor_add_int, hf, zero_add]
  · rw [h2, Int.floor_add_int, hf, zero_add]
    omega

theorem q2up_of_is2dp {q : ℚ} (h : is2dp q) : q2up q = q := by
  rw [is2dp_iff] at h
  obtain ⟨n, rfl⟩ := h
  unfold q2up
  have h100 : (100 : ℚ) * ((n : ℚ) / 100) = (n : ℚ) := by field_simp
  rw [h100, roundHalfUp_intCast]

theorem q2even_of_is2dp {q : ℚ} (h : is2dp q) : q2even q = q := by
  rw [is2dp_iff] at h
  obtain ⟨n, rfl⟩ := h
  unfold q2even
  have h100 : (100 : ℚ) * ((n : ℚ) / 100) = (n : ℚ) := by field_simp
  rw [h100, roundHalfEven_intCast]

theorem is2dp_q2up (q : ℚ) : is2dp (q2up q) := by
  rw [is2dp_iff]
  exact ⟨roundHalfUp (100 * q), rfl⟩

theorem is2dp_q2even (q : ℚ) : is2dp (q2even q) := by
  rw [is2dp_iff]
  exact ⟨roundHalfEven (100 * q), rfl⟩

/-! ## billing/models.py -/

/-- A row of `billing.InvoiceItem` (the fields the core logic reads).
`item_id` is `none` when the line is not linked to an inventory `Item`
(`item = models.ForeignKey(Item, null=True)`). -/
structure BInvoiceItem where
  item_id : Option ℕ
  quantity : ℕ
  total : ℚ
  is_active : Bool
deriving DecidableEq

/-- A row of `billing.Payment`. -/
structure BPayment where
  amount : ℚ
  is_active : Bool
deriving DecidableEq

/-- A row of `billing.ReturnItem`: `invoice_item.item` is flattened into
`item_id` (`none` when the linked invoice item has no inventory item). -/
structure BReturnItem where
  item_id : Option ℕ
  quantity : ℕ
  is_active : Bool
deriving DecidableEq

/-- A row of `billing.Return` together with its `return_items` relation. -/
structure BReturn where
  amount : ℚ
  is_active : Bool
  return_items : List BReturnItem
deriving DecidableEq

/-- A `billing.Invoice` row together with its `invoice_items`, `payments`
and `returns` relations. -/
structure BInvoice where
  base_amount : ℚ
  is_paid : Bool
  invoice_items : List BInvoiceItem
  payments : List BPayment
  returns : List BReturn
deriving DecidableEq

/-- `Invoice.total_return`: sum of active returns' amounts, quantized
`ROUND_HALF_UP`. -/
def BInvoice.total_return (inv : BInvoice) : ℚ :=
  q2up ((inv.returns.filter (·.is_active)).map (·.amount)).sum

/-- `Invoice.total_paid`: sum of active payments' amounts, quantized
`ROUND_HALF_UP`. -/
def BInvoice.total_paid (inv : BInvoice) : ℚ :=
  q2up ((inv.payments.filter (·.is_active)).map (·.amount)).sum

/-- `Invoice.total_amount = max(base_amount - total_return, 0)` quantized
`ROUND_HALF_UP`. -/
def BInvoice.total_amount (inv : BInvoice) : ℚ :=
  q2up (max (inv.base_amount - inv.total_return) 0)

/-- `Invoice.recalculate_base_amount`: recomputes `base_amount` from the active
invoice items and then sets `is_paid = (total_paid >= base_amount)` against the
freshly computed base amount. -/
def BInvoice.recalculate_base_amount (inv : BInvoice) : BInvoice :=
  let total := q2up ((inv.invoice_items.filter (·.is_active)).map (·.total)).sum
  { inv with
    base_amount := total
    is_paid := decide (inv.total_paid ≥ total) }

/-! ## Claim C1 -/

/-- An invoice with one active item of total 100, one active payment of 50 and
one active return of 50: `total_paid` covers the post-return `total_amount`
(50) but not the pre-return `base_amount` (100). -/
def bInvC1ce : BInvoice :=
  { base_amount := 0, is_paid := false
    invoice_items := [⟨none, 1, 100, true⟩]
    payments := [⟨50, true⟩]
    returns := [⟨50, true, []⟩] }

/-- C1 counterexample: after `recalculate_base_amount`, the invoice `bInvC1ce`
has `total_paid ≥ total_amount` (50 ≥ 50) yet `is_paid` is `false`, because the
code compares `total_paid` against `base_amount` (100), not against
`total_amount`.  This refutes the claim that `is_paid` is true iff
`total_paid ≥ total_amount`. -/
theorem billing_is_paid_ignores_returns_counterexample :
    bInvC1ce.recalculate_base_amount.is_paid = false ∧
    bInvC1ce.recalculate_base_amount.total_paid ≥
      bInvC1ce.recalculate_base_amount.total_amount ∧
    bInvC1ce.recalculate_base_amount.total_paid <
      bInvC1ce.recalculate_base_amount.base_amount := by
  refine ⟨?_, ?_, ?_⟩ <;>
    norm_num [bInvC1ce, BInvoice.recalculate_base_amount, BInvoice.total_paid,
      BInvoice.total_return, BInvoice.total_amount, q2up, roundHalfUp]

/-- C1 (amended): for **every** invoice, `Invoice.recalculate_base_amount`
sets `is_paid = (total_paid ≥ base_amount)` — active returns are ignored by
the paid check — so whenever `total_paid` falls short of the recomputed
`base_amount` the invoice is not marked paid, however large its active
returns.  Only when the invoice has no active return amount (and a
non-negative base) does this coincide with the claimed
`is_paid = (total_paid ≥ total_amount)`. -/
theorem billing_is_paid_vs_base_amount (inv : BInvoice) :
    (inv.recalculate_base_amount.is_paid = true ↔
      inv.recalculate_base_amount.total_paid ≥
        inv.recalculate_base_amount.base_amount) ∧
    (inv.recalculate_base_amount.total_paid <
        inv.recalculate_base_amount.base_amount →
      inv.recalculate_base_amount.is_paid = false) ∧
    (inv.recalculate_base_amount.total_return = 0 →
      0 ≤ inv.recalculate_base_amount.base_amount →
      (inv.recalculate_base_amount.is_paid = true ↔
        inv.recalculate_base_amount.total_paid ≥
          inv.recalculate_base_amount.total_amount)) := by
  have hmain : inv.recalculate_base_amount.is_paid = true ↔
      inv.recalculate_base_amount.total_paid ≥
        inv.recalculate_base_amount.base_amount := by
    simp [BInvoice.recalculate_base_amount, BInvoice.total_paid]
  refine ⟨hmain, ?_, ?_⟩
  · intro hlt
    cases hp : inv.recalculate_base_amount.is_paid with
    | false => rfl
    | true => exact absurd (hmain.mp hp) (not_le.mpr hlt)
  · intro hret hbase
    have hta : inv.recalculate_base_amount.total_amount =
        inv.recalculate_base_amount.base_amount := by
      unfold BInvoice.total_amount
      rw [hret, sub_zero, max_eq_left hbase]
      have h2dp : is2dp inv.recalculate_base_amount.base_amount := by
        simp only [BInvoice.recalculate_base_amount]
        exact is2dp_q2up _
      exact q2up_of_is2dp h2dp
    rw [hta]
    exact hmain

/-- A return-free invoice used to witness `billing_is_paid_vs_base_amount`. -/
def bInvC1w : BInvoice :=
  { base_amount := 0, is_paid := false
    invoice_items := [⟨none, 1, 100, true⟩]
    payments := [⟨100, true⟩]
    returns := [] }

/-- Witness for C1's amended theorem at the concrete invoice `bInvC1w`,
discharging the return-free hypotheses of the coincidence part. -/
theorem billing_is_paid_vs_base_amount_witness :
    (bInvC1w.recalculate_base_amount.is_paid = true ↔
      bInvC1w.recalculate_base_amount.total_paid ≥
        bInvC1w.recalculate_base_amount.base_amount) ∧
    (bInvC1w.recalculate_base_amount.is_paid = true ↔
      bInvC1w.recalculate_base_amount.total_paid ≥
        bInvC1w.recalculate_base_amount.total_amount) :=
  ⟨(billing_is_paid_vs_base_amount bInvC1w).1,
   (billing_is_paid_vs_base_amount bInvC1w).2.2
     (by norm_num [bInvC1w, BInvoice.recalculate_base_amount, BInvoice.total_return,
       q2up, roundHalfUp])
     (by norm_num [bInvC1w, BInvoice.recalculate_base_amount, q2up, roundHalfUp])⟩

/-! ## retailapp/models.py -/

/-- `RetailInvoice.PaymentMode` choices. -/
inductive PaymentMode where
  | unpaid
  | cash
  | upi
  | card
  | online
  | cheque
  | other
deriving DecidableEq

/-- A row of `retailapp.RetailInvoiceItem` (the persisted amount fields read
by `recalculate_totals`). -/
structure RItem where
  base_amount : ℚ
  gst_amount : ℚ
  discount_amount : ℚ
  is_active : Bool
deriving DecidableEq

/-- A row of `retailapp.RetailReturn` (the fields read by
`recalculate_totals`). -/
structure RReturn where
  amount : ℚ
  is_active : Bool
deriving DecidableEq

/-- A `retailapp.RetailInvoice` row with its `retail_items` and
`retail_returns` relations.  `payment_date_set` abstracts the
`payment_date` timestamp to whether it is set (`timezone.now()` itself is
outside the model). -/
structure RetailInvoice where
  base_amount : ℚ
  total_gst : ℚ
  total_discount : ℚ
  final_amount : ℚ
  payment_mode : PaymentMode
  payment_date_set : Bool
  transaction_reference : Option String
  retail_items : List RItem
  retail_returns : List RReturn
deriving DecidableEq

/-- The local `base` in `recalculate_totals`:
`items.aggregate(Sum("base_amount"))` over the active items. -/
def RetailInvoice.computedBase (inv : RetailInvoice) : ℚ :=
  ((inv.retail_items.filter (·.is_active)).map (·.base_amount)).sum

/-- The local `gst` in `recalculate_totals`. -/
def RetailInvoice.computedGst (inv : RetailInvoice) : ℚ :=
  ((inv.retail_items.filter (·.is_active)).map (·.gst_amount)).sum

/-- The local `discount` in `recalculate_totals`. -/
def RetailInvoice.computedDiscount (inv : RetailInvoice) : ℚ :=
  ((inv.retail_items.filter (·.is_active)).map (·.discount_amount)).sum

/-- The local `returns_total` in `recalculate_totals`. -/
def RetailInvoice.computedReturns (inv : RetailInvoice) : ℚ :=
  ((inv.retail_returns.filter (·.is_active)).map (·.amount)).sum

/-- The local `final` in `recalculate_totals`:
`max(subtotal_before_returns - returns_total, 0)` where
`subtotal_before_returns = base + gst - discount`. -/
def RetailInvoice.computedFinal (inv : RetailInvoice) : ℚ :=
  max (inv.computedBase + inv.computedGst - inv.computedDiscount
    - inv.computedReturns) 0

/-- `RetailInvoice.recalculate_totals`: recomputes the four persisted
aggregates from the active items and returns, and auto-settles an `UNPAID`
invoice whose final amount is `≤ 0` (payment mode becomes `OTHER`,
`transaction_reference` becomes `'SETTLED_BY_RETURN'` and `payment_date` is
set).  The `.quantize(Decimal("0.01"))` calls use the Decimal default
rounding, i.e. `q2even`. -/
def RetailInvoice.recalculate_totals (inv : RetailInvoice) : RetailInvoice :=
  let settle : Bool :=
    decide (inv.computedFinal ≤ 0) && decide (inv.payment_mode = PaymentMode.unpaid)
  { inv with
    base_amount := q2even inv.computedBase
    total_gst := q2even inv.computedGst
    total_discount := q2even inv.computedDiscount
    final_amount := q2even inv.computedFinal
    payment_mode := if settle then PaymentMode.other else inv.payment_mode
    transaction_reference :=
      if settle then some "SETTLED_BY_RETURN" else inv.transaction_reference
    payment_date_set := if settle then true else inv.payment_date_set }

/-- The four amounts `RetailInvoiceItem.save` computes and persists. -/
structure LineAmounts where
  base_amount : ℚ
  gst_amount : ℚ
  discount_amount : ℚ
  total : ℚ
deriving DecidableEq

/-- The amount computation in `RetailInvoiceItem.save`: all four quantize
with the Decimal default rounding (`q2even`). -/
def retailItemSaveAmounts (quantity : ℕ) (rate gst_percent discount_percent : ℚ) :
    LineAmounts :=
  let base := q2even ((quantity : ℚ) * rate)
  let gst := q2even (base * gst_percent / 100)
  let discount := q2even (base * discount_percent / 100)
  { base_amount := base
    gst_amount := gst
    discount_amount := discount
    total := q2even (base + gst - discount) }

/-- The total computation in `billing.InvoiceItem.save`, which quantizes with
`ROUND_HALF_UP`. -/
def billingItemSaveTotal (quantity : ℕ) (rate gst_amount discount_amount : ℚ) : ℚ :=
  q2up ((quantity : ℚ) * rate + gst_amount - discount_amount)

/-- The auto-calculated amount in `RetailReturn.save` when the return is
linked to an invoice item: per-unit price and final amount both quantize with
the Decimal default rounding (`q2even`). -/
def retailReturnSaveAmount (item_total : ℚ) (item_quantity : ℕ)
    (return_quantity : ℕ) : ℚ :=
  let per_unit_price := q2even (item_total / (item_quantity : ℚ))
  q2even (per_unit_price * (return_quantity : ℚ))

/-! ## Claim C7 -/

/-- C7: the totals recomputation is idempotent.  Running
`billing.Invoice.recalculate_base_amount` or
`retailapp.RetailInvoice.recalculate_totals` twice with no intervening
mutation of line items, payments or returns yields the same persisted record
(aggregates, paid flag and payment fields) as running it once. -/
theorem recalculation_idempotent (binv : BInvoice) (rinv : RetailInvoice) :
    binv.recalculate_base_amount.recalculate_base_amount =
      binv.recalculate_base_amount ∧
    rinv.recalculate_totals.recalculate_totals = rinv.recalculate_totals := by
  constructor
  · rfl
  · by_cases h1 : rinv.computedFinal ≤ 0 <;>
      [skip; skip] <;>
      simp only [RetailInvoice.computedFinal, RetailInvoice.computedBase,
        RetailInvoice.computedGst, RetailInvoice.computedDiscount,
        RetailInvoice.computedReturns] at h1
    · by_cases h2 : rinv.payment_mode = PaymentMode.unpaid <;>
        simp [RetailInvoice.recalculate_totals, RetailInvoice.computedFinal,
          RetailInvoice.computedBase, RetailInvoice.computedGst,
          RetailInvoice.computedDiscount, RetailInvoice.computedReturns, h1, h2]
    · simp [RetailInvoice.recalculate_totals, RetailInvoice.computedFinal,
        RetailInvoice.computedBase, RetailInvoice.computedGst,
        RetailInvoice.computedDiscount, RetailInvoice.computedReturns, h1]

/-! ## Claim C10 -/

/-- C10: whenever `recalculate_totals` computes a final amount `≤ 0` for an
`UNPAID` retail invoice it settles it in the same recomputation
(`payment_mode = OTHER`, `transaction_reference = 'SETTLED_BY_RETURN'`,
`payment_date` set), and conversely an invoice that is still `UNPAID` after
recomputation has a strictly positive persisted final amount.  The stored
line-item and return amounts are two-decimal values (they come from
`DecimalField(decimal_places=2)` columns), which the `h2dp` hypothesis
records. -/
theorem retail_auto_settle (inv : RetailInvoice)
    (h2dp : (∀ it ∈ inv.retail_items,
        is2dp it.base_amount ∧ is2dp it.gst_amount ∧ is2dp it.discount_amount) ∧
      ∀ r ∈ inv.retail_returns, is2dp r.amount) :
    (inv.recalculate_totals.final_amount ≤ 0 →
      inv.payment_mode = PaymentMode.unpaid →
      inv.recalculate_totals.payment_mode = PaymentMode.other ∧
      inv.recalculate_totals.transaction_reference = some "SETTLED_BY_RETURN" ∧
      inv.recalculate_totals.payment_date_set = true) ∧
    (inv.recalculate_totals.payment_mode = PaymentMode.unpaid →
      0 < inv.recalculate_totals.final_amount) := by
  have hfin2dp : is2dp inv.computedFinal := by
    apply is2dp_max _ is2dp_zero
    apply is2dp_sub
    apply is2dp_sub
    apply is2dp_add
    · apply is2dp_sum
      intro x hx
      simp only [RetailInvoice.computedBase, List.mem_map, List.mem_filter] at hx
      obtain ⟨it, ⟨hit, _⟩, rfl⟩ := hx
      exact (h2dp.1 it hit).1
    · apply is2dp_sum
      intro x hx
      simp only [RetailInvoice.computedGst, List.mem_map, List.mem_filter] at hx
      obtain ⟨it, ⟨hit, _⟩, rfl⟩ := hx
      exact (h2dp.1 it hit).2.1
    · apply is2dp_sum
      intro x hx
      simp only [RetailInvoice.computedDiscount, List.mem_map, List.mem_filter] at hx
      obtain ⟨it, ⟨hit, _⟩, rfl⟩ := hx
      exact (h2dp.1 it hit).2.2
    · apply is2dp_sum
      intro x hx
      simp only [RetailInvoice.computedReturns, List.mem_map, List.mem_filter] at hx
      obtain ⟨r, ⟨hr, _⟩, rfl⟩ := hx
      exact h2dp.2 r hr
  have hfe : inv.recalculate_totals.final_amount = inv.computedFinal := by
    simp [RetailInvoice.recalculate_totals, q2even_of_is2dp hfin2dp]
  constructor
  · intro hle hun
    have h0 : inv.computedFinal ≤ 0 := hfe ▸ hle
    simp [RetailInvoice.recalculate_totals, h0, hun]
  · intro hun
    rw [hfe]
    by_contra hpos
    push_neg at hpos
    have h0 : inv.computedFinal ≤ 0 := hpos
    by_cases h2 : inv.payment_mode = PaymentMode.unpaid
    · simp [RetailInvoice.recalculate_totals, h0, h2] at hun
    · have : inv.recalculate_totals.payment_mode = inv.payment_mode := by
        simp [RetailInvoice.recalculate_totals, h2]
      rw [this] at hun
      exact h2 hun

/-- An `UNPAID` retail invoice whose single active return fully cancels its
single active item, used to witness `retail_auto_settle`. -/
def rInvC10w : RetailInvoice :=
  { base_amount := 0, total_gst := 0, total_discount := 0, final_amount := 0
    payment_mode := PaymentMode.unpaid, payment_date_set := false
    transaction_reference := none
    retail_items := [⟨100, 0, 0, true⟩]
    retail_returns := [⟨100, true⟩] }

/-- Witness for C10's theorem at the concrete invoice `rInvC10w`. -/
theorem retail_auto_settle_witness :
    rInvC10w.recalculate_totals.payment_mode = PaymentMode.other ∧
    rInvC10w.recalculate_totals.transaction_reference = some "SETTLED_BY_RETURN" ∧
    rInvC10w.recalculate_totals.payment_date_set = true := by
  have hcf : rInvC10w.computedFinal = 0 := by
    norm_num [RetailInvoice.computedFinal, RetailInvoice.computedBase,
      RetailInvoice.computedGst, RetailInvoice.computedDiscount,
      RetailInvoice.computedReturns, rInvC10w]
  refine (retail_auto_settle rInvC10w ⟨?_, ?_⟩).1 ?_ rfl
  · intro it hit
    simp only [rInvC10w, List.mem_singleton] at hit
    subst hit
    exact ⟨(is2dp_iff _).mpr ⟨10000, by norm_num⟩, is2dp_zero, is2dp_zero⟩
  · intro r hr
    simp only [rInvC10w, List.mem_singleton] at hr
    subst hr
    exact (is2dp_iff _).mpr ⟨10000, by norm_num⟩
  · show q2even rInvC10w.computedFinal ≤ 0
    rw [hcf, q2even_of_is2dp is2dp_zero]

/-! ## Rounding helper lemmas -/

theorem roundHalfEven_eq_of_lt {q : ℚ} {n : ℤ} (hn : ⌊q⌋ = n)
    (h : q - (n : ℚ) < 1/2) : roundHalfEven q = n := by
  unfold roundHalfEven
  rw [hn, if_pos h]

theorem roundHalfEven_eq_of_gt {q : ℚ} {n : ℤ} (hn : ⌊q⌋ = n)
    (h : (1 : ℚ)/2 < q - (n : ℚ)) : roundHalfEven q = n + 1 := by
  unfold roundHalfEven
  rw [hn, if_neg (by linarith), if_pos h]

theorem roundHalfEven_eq_of_tie_even {q : ℚ} {n : ℤ} (hn : ⌊q⌋ = n)
    (h : q - (n : ℚ) = 1/2) (he : n % 2 = 0) : roundHalfEven q = n := by
  unfold roundHalfEven
  rw [hn, if_neg (by rw [h]; exact lt_irrefl _), if_neg (by rw [h]; exact lt_irrefl _),
    if_pos he]

theorem roundHalfUp_eq_of_nonneg {q : ℚ} {n : ℤ} (h0 : 0 ≤ q)
    (h : ⌊q + 1/2⌋ = n) : roundHalfUp q = n := by
  unfold roundHalfUp
  rw [if_pos h0, h]

theorem q2even_eq {q : ℚ} {n : ℤ} (h : roundHalfEven (100 * q) = n) :
    q2even q = (n : ℚ)/100 := by
  unfold q2even
  rw [h]

theorem q2up_eq {q : ℚ} {n : ℤ} (h : roundHalfUp (100 * q) = n) :
    q2up q = (n : ℚ)/100 := by
  unfold q2up
  rw [h]

theorem abs_floor_half_sub_le (x : ℚ) : |(⌊x + 1/2⌋ : ℚ) - x| ≤ 1/2 := by
  have h1 : (⌊x + 1/2⌋ : ℚ) ≤ x + 1/2 := Int.floor_le _
  have h2 : x + 1/2 - 1 < (⌊x + 1/2⌋ : ℚ) := Int.sub_one_lt_floor _
  rw [abs_le]
  constructor <;> linarith

theorem abs_roundHalfUp_sub_le (q : ℚ) : |(roundHalfUp q : ℚ) - q| ≤ 1/2 := by
  unfold roundHalfUp
  split
  · exact abs_floor_half_sub_le q
  · have h := abs_floor_half_sub_le (-q)
    have heq : ((-⌊-q + 1/2⌋ : ℤ) : ℚ) - q = -((⌊-q + 1/2⌋ : ℚ) - (-q)) := by
      push_cast
      ring
    rw [heq, abs_neg]
    exact h

theorem abs_roundHalfEven_sub_le (q : ℚ) : |(roundHalfEven q : ℚ) - q| ≤ 1/2 := by
  have h0 : (⌊q⌋ : ℚ) ≤ q := Int.floor_le q
  have h1 : q < (⌊q⌋ : ℚ) + 1 := Int.lt_floor_add_one q
  unfold roundHalfEven
  split
  · rename_i h
    rw [abs_le]
    constructor <;> linarith
  · split
    · rename_i hc h
      rw [abs_le]
      push_cast
      constructor <;> linarith [not_lt.mp hc]
    · rename_i hc1 hc2
      have hge : (1 : ℚ)/2 ≤ q - (⌊q⌋ : ℚ) := not_lt.mp hc1
      have hle : q - (⌊q⌋ : ℚ) ≤ 1/2 := not_lt.mp hc2
      split <;> rw [abs_le] <;> push_cast <;> constructor <;> linarith

theorem abs_q2up_sub_le (q : ℚ) : |q2up q - q| ≤ 1/200 := by
  have h := abs_roundHalfUp_sub_le (100 * q)
  unfold q2up
  have heq : ((roundHalfUp (100 * q) : ℤ) : ℚ)/100 - q =
      (((roundHalfUp (100 * q) : ℤ) : ℚ) - 100 * q)/100 := by ring
  rw [heq, abs_div]
  have h100 : |(100 : ℚ)| = 100 := by norm_num
  rw [h100]
  linarith

theorem abs_q2even_sub_le (q : ℚ) : |q2even q - q| ≤ 1/200 := by
  have h := abs_roundHalfEven_sub_le (100 * q)
  unfold q2even
  have heq : ((roundHalfEven (100 * q) : ℤ) : ℚ)/100 - q =
      (((roundHalfEven (100 * q) : ℤ) : ℚ) - 100 * q)/100 := by ring
  rw [heq, abs_div]
  have h100 : |(100 : ℚ)| = 100 := by norm_num
  rw [h100]
  linarith

/-! ## Claim C6 -/

/-- C6 counterexample: a retail line item with quantity 1, rate 1.25 and
GST 10% gets `gst_amount = 0.12` from `RetailInvoiceItem.save` (Decimal
default rounding, half-even on the tie 0.125), while round-half-up
quantization of the same exact value gives `0.13`.  So not every persisted
monetary value is rounded half-up. -/
theorem monetary_rounding_counterexample :
    (retailItemSaveAmounts 1 (5/4) 10 0).gst_amount = 12/100 ∧
    q2up ((retailItemSaveAmounts 1 (5/4) 10 0).base_amount * 10 / 100) = 13/100 ∧
    ((12 : ℚ)/100) ≠ 13/100 := by
  have hbase : (retailItemSaveAmounts 1 (5/4) 10 0).base_amount = 5/4 := by
    show q2even (((1 : ℕ) : ℚ) * (5/4)) = 5/4
    have h : roundHalfEven (100 * (((1 : ℕ) : ℚ) * (5/4))) = 125 := by
      rw [show (100 : ℚ) * (((1 : ℕ) : ℚ) * (5/4)) = ((125 : ℤ) : ℚ) by norm_num]
      exact roundHalfEven_intCast 125
    rw [q2even_eq h]
    norm_num
  refine ⟨?_, ?_, by norm_num⟩
  · show q2even ((retailItemSaveAmounts 1 (5/4) 10 0).base_amount * 10 / 100) = 12/100
    rw [hbase]
    have h : roundHalfEven (100 * ((5 : ℚ)/4 * 10 / 100)) = 12 := by
      rw [show (100 : ℚ) * ((5 : ℚ)/4 * 10 / 100) = 25/2 by norm_num]
      exact roundHalfEven_eq_of_tie_even (by norm_num [Int.floor_eq_iff])
        (by norm_num) (by decide)
    rw [q2even_eq h]
    norm_num
  · rw [hbase]
    have h : roundHalfUp (100 * ((5 : ℚ)/4 * 10 / 100)) = 13 := by
      rw [show (100 : ℚ) * ((5 : ℚ)/4 * 10 / 100) = 25/2 by norm_num]
      exact roundHalfUp_eq_of_nonneg (by norm_num)
        (by norm_num [Int.floor_eq_iff])
    rw [q2up_eq h]
    norm_num

/-- C6 (amended): every monetary value the core computes and persists is
quantized to exactly two decimal places and lies within half a cent of the
exact unquantized value.  The billing module (`InvoiceItem.save`,
`recalculate_base_amount`) quantizes with `ROUND_HALF_UP` as claimed, but the
retailapp computations (`RetailInvoiceItem.save`, `RetailReturn.save`,
`recalculate_totals`) quantize with the Decimal default `ROUND_HALF_EVEN`. -/
theorem monetary_quantization_two_dp (quantity bqty iqty rqty : ℕ)
    (rate gst_percent discount_percent gst_amount discount_amount item_total : ℚ)
    (inv : BInvoice) (rinv : RetailInvoice) :
    (is2dp (retailItemSaveAmounts quantity rate gst_percent discount_percent).base_amount ∧
     is2dp (retailItemSaveAmounts quantity rate gst_percent discount_percent).gst_amount ∧
     is2dp (retailItemSaveAmounts quantity rate gst_percent discount_percent).discount_amount ∧
     is2dp (retailItemSaveAmounts quantity rate gst_percent discount_percent).total) ∧
    ((retailItemSaveAmounts quantity rate gst_percent discount_percent).gst_amount =
      q2even ((retailItemSaveAmounts quantity rate gst_percent discount_percent).base_amount
        * gst_percent / 100) ∧
     |(retailItemSaveAmounts quantity rate gst_percent discount_percent).gst_amount -
       (retailItemSaveAmounts quantity rate gst_percent discount_percent).base_amount
        * gst_percent / 100| ≤ 1/200) ∧
    (is2dp (billingItemSaveTotal bqty rate gst_amount discount_amount) ∧
     billingItemSaveTotal bqty rate gst_amount discount_amount =
       q2up ((bqty : ℚ) * rate + gst_amount - discount_amount) ∧
     |billingItemSaveTotal bqty rate gst_amount discount_amount -
       ((bqty : ℚ) * rate + gst_amount - discount_amount)| ≤ 1/200) ∧
    is2dp (retailReturnSaveAmount item_total iqty rqty) ∧
    is2dp inv.recalculate_base_amount.base_amount ∧
    (is2dp rinv.recalculate_totals.base_amount ∧
     is2dp rinv.recalculate_totals.final_amount) := by
  refine ⟨⟨is2dp_q2even _, is2dp_q2even _, is2dp_q2even _, is2dp_q2even _⟩,
    ⟨rfl, abs_q2even_sub_le _⟩, ⟨is2dp_q2up _, rfl, abs_q2up_sub_le _⟩,
    is2dp_q2even _, is2dp_q2up _, is2dp_q2even _, is2dp_q2even _⟩

/-! ## Claim C3 -/

/-- `billing.Return.get_items_for_stock_restoration`.  The first branch covers
a return with active `ReturnItem` rows (linked restoration); otherwise the
restoration quantity of every active inventory-linked invoice item is
estimated proportionally with `int(invoice_item.quantity * (amount /
base_amount))` — Python `int()` truncation — with a floor of 1 when the
product truncates to zero and the return amount is positive, and only
positive quantities are emitted. -/
def getItemsForStockRestoration (ret : BReturn) (inv : BInvoice) : List (ℕ × ℤ) :=
  let active_ris := ret.return_items.filter (·.is_active)
  if active_ris.isEmpty = false then
    active_ris.filterMap (fun ri => ri.item_id.map (fun iid => (iid, (ri.quantity : ℤ))))
  else
    let active_items := inv.invoice_items.filter (·.is_active)
    if active_items.isEmpty then []
    else if inv.base_amount ≤ 0 then []
    else
      active_items.filterMap (fun ii =>
        match ii.item_id with
        | none => none
        | some iid =>
          let q0 := truncQ ((ii.quantity : ℚ) * (ret.amount / inv.base_amount))
          let q1 := if q0 = 0 ∧ 0 < ret.amount then 1 else q0
          if 0 < q1 then some (iid, q1) else none)

/-- The restoration quantity as the spec's sentence words it:
`round(line_item.quantity * (return.amount / invoice.base_amount))` (Python
`round`, half-even), with a floor of 1 when the rounded value is zero and the
return amount is positive.  Used only to compare against the source's
truncating computation. -/
def specRestorationQty (line_quantity : ℕ) (ret_amount base_amount : ℚ) : ℤ :=
  let q0 := roundHalfEven ((line_quantity : ℚ) * (ret_amount / base_amount))
  if q0 = 0 ∧ 0 < ret_amount then 1 else q0

/-- A return of amount 1 against an invoice of base amount 2 with a single
active inventory-linked line item of quantity 3. -/
def retC3ce : BReturn := { amount := 1, is_active := true, return_items := [] }

/-- The invoice for the C3 counterexample. -/
def bInvC3ce : BInvoice :=
  { base_amount := 2, is_paid := false
    invoice_items := [⟨some 1, 3, 2, true⟩]
    payments := []
    returns := [retC3ce] }

/-- C3 counterexample: for `retC3ce` on `bInvC3ce` the proportional product is
`3 * (1/2) = 1.5`.  The code truncates (`int(...)`) and restores 1 unit,
while the claimed `round(...)` gives 2. -/
theorem return_restoration_round_counterexample :
    getItemsForStockRestoration retC3ce bInvC3ce = [(1, 1)] ∧
    specRestorationQty 3 1 2 = 2 ∧ (1 : ℤ) ≠ 2 := by
  refine ⟨?_, ?_, by decide⟩
  · have htr : truncQ ((3 : ℚ)/2) = 1 := by
      unfold truncQ
      rw [if_pos (by norm_num)]
      norm_num [Int.floor_eq_iff]
    simp only [getItemsForStockRestoration, retC3ce, bInvC3ce]
    norm_num [List.filterMap_cons, htr]
  · have hre : roundHalfEven (((3 : ℕ) : ℚ) * ((1 : ℚ) / (2 : ℚ))) = 2 := by
      rw [show ((3 : ℕ) : ℚ) * ((1 : ℚ) / (2 : ℚ)) = 3/2 by norm_num]
      unfold roundHalfEven
      rw [show ⌊(3 : ℚ)/2⌋ = 1 by norm_num [Int.floor_eq_iff]]
      rw [if_neg (by push_cast; norm_num), if_neg (by push_cast; norm_num),
        if_neg (by decide)]
      decide
    simp only [specRestorationQty, hre]
    norm_num

/-- C3 (amended): for a return not linked to specific line items, on an
invoice with positive base amount and a positive return amount, the quantity
restored for every active inventory-linked line item is
`max(floor(quantity * amount / base_amount), 1)` — `int()` truncation with a
floor of one unit — not `round(...)` as claimed. -/
theorem return_restoration_truncates (ret : BReturn) (inv : BInvoice)
    (hlinked : ret.return_items.filter (·.is_active) = [])
    (hne : (inv.invoice_items.filter (·.is_active)).isEmpty = false)
    (hbase : 0 < inv.base_amount) (hamt : 0 < ret.amount) :
    getItemsForStockRestoration ret inv =
      (inv.invoice_items.filter (·.is_active)).filterMap (fun ii =>
        ii.item_id.map (fun iid =>
          (iid, max (⌊(ii.quantity : ℚ) * (ret.amount / inv.base_amount)⌋) 1))) := by
  unfold getItemsForStockRestoration
  rw [hlinked]
  rw [if_neg (by simp)]
  rw [if_neg (by rw [hne]; exact Bool.false_ne_true)]
  rw [if_neg (not_le.mpr hbase)]
  apply List.filterMap_congr
  intro ii _
  cases hid : ii.item_id with
  | none => simp
  | some iid =>
    have hx : (0 : ℚ) ≤ (ii.quantity : ℚ) * (ret.amount / inv.base_amount) := by
      positivity
    have hq0 : truncQ ((ii.quantity : ℚ) * (ret.amount / inv.base_amount)) =
        ⌊(ii.quantity : ℚ) * (ret.amount / inv.base_amount)⌋ := by
      unfold truncQ
      rw [if_pos hx]
    have hfl : 0 ≤ ⌊(ii.quantity : ℚ) * (ret.amount / inv.base_amount)⌋ :=
      Int.floor_nonneg.mpr hx
    simp only [hq0, Option.map_some']
    by_cases h0 : ⌊(ii.quantity : ℚ) * (ret.amount / inv.base_amount)⌋ = 0
    · have hin : (if ⌊(ii.quantity : ℚ) * (ret.amount / inv.base_amount)⌋ = 0 ∧
          0 < ret.amount then (1 : ℤ)
          else ⌊(ii.quantity : ℚ) * (ret.amount / inv.base_amount)⌋) = 1 :=
        if_pos ⟨h0, hamt⟩
      rw [hin, if_pos (by norm_num : (0 : ℤ) < 1), h0]
      simp
    · have h1 : 1 ≤ ⌊(ii.quantity : ℚ) * (ret.amount / inv.base_amount)⌋ := by
        omega
      have hin : (if ⌊(ii.quantity : ℚ) * (ret.amount / inv.base_amount)⌋ = 0 ∧
          0 < ret.amount then (1 : ℤ)
          else ⌊(ii.quantity : ℚ) * (ret.amount / inv.base_amount)⌋) =
          ⌊(ii.quantity : ℚ) * (ret.amount / inv.base_amount)⌋ :=
        if_neg (by simp [h0])
      rw [hin, if_pos (by omega), max_eq_left h1]

/-- Witness for C3's amended theorem: on `bInvC3ce` with return `retC3ce` the
restoration list is exactly `[(1, max ⌊3 * (1/2)⌋ 1)] = [(1, 1)]`. -/
theorem return_restoration_truncates_witness :
    getItemsForStockRestoration retC3ce bInvC3ce =
      (bInvC3ce.invoice_items.filter (·.is_active)).filterMap (fun ii =>
        ii.item_id.map (fun iid =>
          (iid, max (⌊(ii.quantity : ℚ) * (retC3ce.amount / bInvC3ce.base_amount)⌋) 1))) :=
  return_restoration_truncates retC3ce bInvC3ce rfl (by norm_num [bInvC3ce])
    (by norm_num [bInvC3ce]) (by norm_num [retC3ce])

/-! ## core/inventory_manager.py : update reconciliation -/

/-- Keys of an association list (a Python dict's key view). -/
def keys (d : List (ℕ × ℤ)) : List ℕ := d.map (·.1)

/-- One step of building a Python dict by comprehension: assigning `d[k] = v`
overwrites an existing entry for `k` in place, otherwise appends. -/
def pyDictInsert (d : List (ℕ × ℤ)) (k : ℕ) (v : ℤ) : List (ℕ × ℤ) :=
  if d.any (fun p => p.1 = k) then
    d.map (fun p => if p.1 = k then (k, v) else p)
  else d ++ [(k, v)]

/-- `{item['item_id']: item['quantity'] for item in items}`: a Python dict
comprehension in insertion order; a repeated key keeps its first position but
takes the **last** value. -/
def pyDict (l : List (ℕ × ℤ)) : List (ℕ × ℤ) :=
  l.foldl (fun d p => pyDictInsert d p.1 p.2) []

/-- `d.get(k)` / `k in d` on the embedded dict. -/
def lookupD (d : List (ℕ × ℤ)) (k : ℕ) : Option ℤ :=
  (d.find? (fun p => p.1 = k)).map (·.2)

/-- The `reason` tag attached to entries of `items_to_add_stock`. -/
inductive AddReason where
  | removedFromInvoice
  | quantityDecreased
deriving DecidableEq

/-- The `reason` tag attached to entries of `items_to_deduct_stock`. -/
inductive DeductReason where
  | addedToInvoice
  | quantityIncreased
deriving DecidableEq

/-- The `items_to_add_stock` list computed by
`update_stock_for_invoice_update` from the two dicts: removed items restore
their full original quantity, decreased items restore the difference. -/
def itemsToAddStock (od ud : List (ℕ × ℤ)) : List (ℕ × ℤ × AddReason) :=
  od.filterMap (fun p =>
    match lookupD ud p.1 with
    | none => some (p.1, p.2, AddReason.removedFromInvoice)
    | some uq =>
      if 0 < p.2 - uq then some (p.1, p.2 - uq, AddReason.quantityDecreased)
      else none)

/-- The `items_to_deduct_stock` list computed by
`update_stock_for_invoice_update`: quantity-increased items (first loop, in
original-dict order) followed by newly added items (second loop, in
updated-dict order). -/
def itemsToDeductStock (od ud : List (ℕ × ℤ)) : List (ℕ × ℤ × DeductReason) :=
  (od.filterMap (fun p =>
    match lookupD ud p.1 with
    | none => none
    | some uq =>
      if p.2 - uq < 0 then some (p.1, |p.2 - uq|, DeductReason.quantityIncreased)
      else none))
  ++ ud.filterMap (fun p =>
    if lookupD od p.1 = none then some (p.1, p.2, DeductReason.addedToInvoice)
    else none)

/-- The pair of ledger-mutation lists `update_stock_for_invoice_update`
derives from the submitted `original_items` and `updated_items` rows (the
additions of phase 2 and the deductions of phase 3, in execution order). -/
def stockUpdatePlan (original_items updated_items : List (ℕ × ℤ)) :
    List (ℕ × ℤ × AddReason) × List (ℕ × ℤ × DeductReason) :=
  (itemsToAddStock (pyDict original_items) (pyDict updated_items),
   itemsToDeductStock (pyDict original_items) (pyDict updated_items))

/-- Grouping as the spec's tie-break sentence words it: quantities of rows
sharing an `item_id` are **summed** (first-occurrence position).  Used only to
compare against the dict comprehension the source actually builds. -/
def groupSumInsert (d : List (ℕ × ℤ)) (k : ℕ) (v : ℤ) : List (ℕ × ℤ) :=
  if d.any (fun p => p.1 = k) then
    d.map (fun p => if p.1 = k then (p.1, p.2 + v) else p)
  else d ++ [(k, v)]

/-- Sum-grouping of submitted rows by `item_id`. -/
def groupSum (l : List (ℕ × ℤ)) : List (ℕ × ℤ) :=
  l.foldl (fun d p => groupSumInsert d p.1 p.2) []

/-! ## Claim C2 -/

theorem keys_append (a b : List (ℕ × ℤ)) : keys (a ++ b) = keys a ++ keys b :=
  List.map_append _ a b

theorem pyDictInsert_of_not_mem {d : List (ℕ × ℤ)} {k : ℕ} (v : ℤ)
    (h : k ∉ keys d) : pyDictInsert d k v = d ++ [(k, v)] := by
  have hc : ¬ (d.any (fun p => p.1 = k) = true) := by
    rw [List.any_eq_true]
    rintro ⟨p, hp, hpk⟩
    rw [decide_eq_true_eq] at hpk
    exact h (hpk ▸ List.mem_map_of_mem (·.1) hp)
  unfold pyDictInsert
  rw [if_neg hc]

theorem foldl_pyDictInsert_of_nodup :
    ∀ (l acc : List (ℕ × ℤ)), (keys (acc ++ l)).Nodup →
      l.foldl (fun d p => pyDictInsert d p.1 p.2) acc = acc ++ l := by
  intro l
  induction l with
  | nil => intro acc _; simp
  | cons p t ih =>
      intro acc h
      have hnotin : p.1 ∉ keys acc := by
        rw [keys_append] at h
        have hmem : p.1 ∈ keys (p :: t) := List.mem_map_of_mem (·.1) (List.mem_cons_self p t)
        exact fun hin => (List.disjoint_of_nodup_append h) hin hmem
      rw [List.foldl_cons, pyDictInsert_of_not_mem p.2 hnotin]
      have hre : acc ++ [(p.1, p.2)] ++ t = acc ++ p :: t := by
        simp
      rw [ih (acc ++ [(p.1, p.2)]) (by rw [hre]; exact h), hre]

theorem keys_pyDictInsert (d : List (ℕ × ℤ)) (k : ℕ) (v : ℤ) :
    keys (pyDictInsert d k v) =
      if d.any (fun p => p.1 = k) then keys d else keys d ++ [k] := by
  unfold pyDictInsert
  split
  · unfold keys
    rw [List.map_map]
    apply List.map_congr_left
    intro p _
    simp only [Function.comp_apply]
    by_cases h : p.1 = k
    · rw [if_pos h, h]
    · rw [if_neg h]
  · rw [keys_append]
    rfl

theorem keys_nodup_pyDict (l : List (ℕ × ℤ)) : (keys (pyDict l)).Nodup := by
  suffices h : ∀ (acc : List (ℕ × ℤ)), (keys acc).Nodup →
      (keys (l.foldl (fun d p => pyDictInsert d p.1 p.2) acc)).Nodup by
    exact h [] (by simp [keys])
  induction l with
  | nil => intro acc h; simpa using h
  | cons p t ih =>
      intro acc h
      rw [List.foldl_cons]
      apply ih
      rw [keys_pyDictInsert]
      split
      · exact h
      · rename_i hany
        rw [List.nodup_append]
        refine ⟨h, List.nodup_singleton _, ?_⟩
        intro x hx hmem
        simp only [List.mem_singleton] at hmem
        subst hmem
        simp only [List.any_eq_true, decide_eq_true_eq] at hany
        obtain ⟨q, hq, hqe⟩ := List.mem_map.mp hx
        exact hany ⟨q, hq, hqe⟩

theorem pyDict_idem (l : List (ℕ × ℤ)) : pyDict (pyDict l) = pyDict l := by
  have h := foldl_pyDictInsert_of_nodup (pyDict l) []
    (by simpa using keys_nodup_pyDict l)
  simpa [pyDict] using h

theorem pyDict_of_nodup {l : List (ℕ × ℤ)} (h : (keys l).Nodup) :
    pyDict l = l := by
  have := foldl_pyDictInsert_of_nodup l [] (by simpa using h)
  simpa [pyDict] using this

/-- An update where item 1 is submitted on two rows (quantities 2 and 3)
against an original of 5.  Summing the rows would make the update a no-op;
the dict comprehension keeps only the last row (3), so the code restores 2. -/
theorem update_reconciliation_sum_counterexample :
    ¬ (stockUpdatePlan [(1, 5)] [(1, 2), (1, 3)] =
      stockUpdatePlan (groupSum [(1, 5)]) (groupSum [(1, 2), (1, 3)])) ∧
    stockUpdatePlan [(1, 5)] [(1, 2), (1, 3)] =
      ([(1, 2, AddReason.quantityDecreased)], []) ∧
    stockUpdatePlan (groupSum [(1, 5)]) (groupSum [(1, 2), (1, 3)]) = ([], []) := by
  refine ⟨?_, by decide, by decide⟩
  intro h
  have h2 : stockUpdatePlan [(1, 5)] [(1, 2), (1, 3)] =
      ([(1, 2, AddReason.quantityDecreased)], []) := by decide
  have h3 : stockUpdatePlan (groupSum [(1, 5)]) (groupSum [(1, 2), (1, 3)]) = ([], []) := by decide
  rw [h2, h3] at h
  exact absurd h (by decide)

/-- C2 (amended): when the same `item_id` appears in multiple rows of
`original_items` or `updated_items`, `update_stock_for_invoice_update`
resolves the duplicates with Python-dict semantics — the **last** row's
quantity wins and earlier rows are discarded (quantities are *not* summed):
the ledger mutations equal those produced for the last-value-deduplicated
lists. -/
theorem update_reconciliation_last_wins
    (original_items updated_items : List (ℕ × ℤ)) :
    stockUpdatePlan original_items updated_items =
      stockUpdatePlan (pyDict original_items) (pyDict updated_items) := by
  unfold stockUpdatePlan
  rw [pyDict_idem, pyDict_idem]

/-! ## Claim C4 -/

theorem lookupD_eq_none_iff {d : List (ℕ × ℤ)} {k : ℕ} :
    lookupD d k = none ↔ k ∉ keys d := by
  unfold lookupD keys
  rw [Option.map_eq_none', List.find?_eq_none]
  constructor
  · intro h hk
    obtain ⟨p, hp, hpk⟩ := List.mem_map.mp hk
    have := h p hp
    simp [hpk] at this
  · intro h p hp
    simp only [decide_eq_true_eq]
    intro hpk
    exact h (List.mem_map.mpr ⟨p, hp, hpk⟩)

theorem lookupD_eq_some_iff {d : List (ℕ × ℤ)} (hd : (keys d).Nodup) {k : ℕ} {v : ℤ} :
    lookupD d k = some v ↔ (k, v) ∈ d := by
  induction d with
  | nil => simp [lookupD]
  | cons p t ih =>
      have hd' : p.1 ∉ keys t ∧ (keys t).Nodup := by
        rw [show keys (p :: t) = p.1 :: keys t from rfl, List.nodup_cons] at hd
        exact hd
      by_cases hpk : p.1 = k
      · unfold lookupD
        rw [List.find?_cons_of_pos _ (by simp [hpk])]
        simp only [Option.map_some', Option.some.injEq]
        constructor
        · intro h
          have hkp : (k, v) = p := by
            rw [← hpk, ← h]
          rw [hkp]
          exact List.mem_cons_self p t
        · intro h
          rcases List.mem_cons.mp h with h1 | h2
          · rw [← h1]
          · exact absurd (hpk ▸ List.mem_map_of_mem (·.1) h2) hd'.1
      · unfold lookupD
        rw [List.find?_cons_of_neg _ (by simp [hpk])]
        rw [show ((t.find? (fun p => p.1 = k)).map (·.2) = some v) ↔
          (lookupD t k = some v) from Iff.rfl]
        rw [ih hd'.2]
        constructor
        · exact fun h => List.mem_cons_of_mem p h
        · intro h
          rcases List.mem_cons.mp h with h1 | h2
          · exact absurd (by rw [← h1]) hpk
          · exact h2

theorem map_fst_filterMap_sublist {β : Type} (f : (ℕ × ℤ) → Option (ℕ × β))
    (hf : ∀ p b, f p = some b → b.1 = p.1) :
    ∀ l : List (ℕ × ℤ), ((l.filterMap f).map (·.1)).Sublist (keys l) := by
  intro l
  induction l with
  | nil => simp [keys]
  | cons p t ih =>
      rw [List.filterMap_cons]
      cases hf2 : f p with
      | none =>
          exact ih.cons p.1
      | some b =>
          rw [List.map_cons, show keys (p :: t) = p.1 :: keys t from rfl,
            hf p b hf2]
          exact ih.cons₂ p.1

theorem mem_itemsToAddStock_iff {o u : List (ℕ × ℤ)} (hu : (keys u).Nodup)
    {i : ℕ} {q : ℤ} {r : AddReason} :
    (i, q, r) ∈ itemsToAddStock o u ↔
      ∃ oq, (i, oq) ∈ o ∧
        ((lookupD u i = none ∧ q = oq ∧ r = AddReason.removedFromInvoice) ∨
         (∃ uq, (i, uq) ∈ u ∧ uq < oq ∧ q = oq - uq ∧
           r = AddReason.quantityDecreased)) := by
  unfold itemsToAddStock
  rw [List.mem_filterMap]
  constructor
  · rintro ⟨p, hp, hfp⟩
    cases hlu : lookupD u p.1 with
    | none =>
        simp only [hlu, Option.some.injEq, Prod.mk.injEq] at hfp
        obtain ⟨h1, h2, h3⟩ := hfp
        have hpe : (i, p.2) = p := by
          rw [← h1]
        refine ⟨p.2, by rw [hpe]; exact hp, Or.inl ⟨h1 ▸ hlu, h2.symm, h3.symm⟩⟩
    | some uq =>
        simp only [hlu] at hfp
        by_cases hpos : 0 < p.2 - uq
        · rw [if_pos hpos] at hfp
          simp only [Option.some.injEq, Prod.mk.injEq] at hfp
          obtain ⟨h1, h2, h3⟩ := hfp
          have hpe : (i, p.2) = p := by
            rw [← h1]
          refine ⟨p.2, by rw [hpe]; exact hp,
            Or.inr ⟨uq, (lookupD_eq_some_iff hu).mp (h1 ▸ hlu), by omega,
              h2.symm, h3.symm⟩⟩
        · rw [if_neg hpos] at hfp
          exact absurd hfp (Option.noConfusion)
  · rintro ⟨oq, hmo, hbr | hbr⟩
    · obtain ⟨hnone, hq, hr⟩ := hbr
      refine ⟨(i, oq), hmo, ?_⟩
      have hlu : lookupD u ((i, oq) : ℕ × ℤ).1 = none := hnone
      simp only [hlu, hq, hr]
    · obtain ⟨uq, hmu, hlt, hq, hr⟩ := hbr
      refine ⟨(i, oq), hmo, ?_⟩
      have hlu : lookupD u ((i, oq) : ℕ × ℤ).1 = some uq :=
        (lookupD_eq_some_iff hu).mpr hmu
      have hpos : (0 : ℤ) < ((i, oq) : ℕ × ℤ).2 - uq := by
        show (0 : ℤ) < oq - uq
        omega
      simp only [hlu, if_pos hpos, hq, hr]

theorem mem_itemsToDeductStock_iff {o u : List (ℕ × ℤ)}
    (hu : (keys u).Nodup)
    {i : ℕ} {q : ℤ} {r : DeductReason} :
    (i, q, r) ∈ itemsToDeductStock o u ↔
      ((∃ oq uq, (i, oq) ∈ o ∧ (i, uq) ∈ u ∧ oq < uq ∧ q = uq - oq ∧
         r = DeductReason.quantityIncreased) ∨
       (lookupD o i = none ∧ (i, q) ∈ u ∧ r = DeductReason.addedToInvoice)) := by
  unfold itemsToDeductStock
  rw [List.mem_append, List.mem_filterMap, List.mem_filterMap]
  constructor
  · rintro (⟨p, hp, hfp⟩ | ⟨p, hp, hfp⟩)
    · cases hlu : lookupD u p.1 with
      | none =>
          simp only [hlu] at hfp
          exact Option.noConfusion hfp
      | some uq =>
          simp only [hlu] at hfp
          by_cases hneg : p.2 - uq < 0
          · rw [if_pos hneg] at hfp
            simp only [Option.some.injEq, Prod.mk.injEq] at hfp
            obtain ⟨h1, h2, h3⟩ := hfp
            have hpe : (i, p.2) = p := by
              rw [← h1]
            have habs : |p.2 - uq| = uq - p.2 := by
              rw [abs_of_neg hneg]
              ring
            refine Or.inl ⟨p.2, uq, by rw [hpe]; exact hp,
              (lookupD_eq_some_iff hu).mp (h1 ▸ hlu), by omega,
              by rw [← h2]; exact habs, h3.symm⟩
          · rw [if_neg hneg] at hfp
            exact absurd hfp (Option.noConfusion)
    · by_cases hno : lookupD o p.1 = none
      · rw [if_pos hno] at hfp
        simp only [Option.some.injEq, Prod.mk.injEq] at hfp
        obtain ⟨h1, h2, h3⟩ := hfp
        have hpe : (i, q) = p := by
          rw [← h1, ← h2]
        exact Or.inr ⟨h1 ▸ hno, by rw [hpe]; exact hp, h3.symm⟩
      · rw [if_neg hno] at hfp
        exact absurd hfp (Option.noConfusion)
  · rintro (⟨oq, uq, hmo, hmu, hlt, hq, hr⟩ | ⟨hnone, hmu, hr⟩)
    · refine Or.inl ⟨(i, oq), hmo, ?_⟩
      have hlu : lookupD u ((i, oq) : ℕ × ℤ).1 = some uq :=
        (lookupD_eq_some_iff hu).mpr hmu
      have hneg : ((i, oq) : ℕ × ℤ).2 - uq < 0 := by
        show oq - uq < 0
        omega
      have habs : |((i, oq) : ℕ × ℤ).2 - uq| = uq - oq := by
        show |oq - uq| = uq - oq
        rw [abs_of_neg (by omega : oq - uq < 0)]
        ring
      simp only [hlu, if_pos hneg, habs, hq, hr]
    · refine Or.inr ⟨(i, q), hmu, ?_⟩
      have hno : lookupD o ((i, q) : ℕ × ℤ).1 = none := hnone
      simp only [hno, if_pos, hr]

/-- C4: for an update whose `original_items` and `updated_items` are grouped
by `item_id` (no duplicate keys), the reconciliation issues exactly:
`add(i, oq)` for items only in the original, `deduct(i, uq)` for items only
in the updated set, `add`/`deduct` of the absolute difference for items in
both whose quantity changed — and nothing else: the membership
characterizations are exact and each list mentions every item at most once. -/
theorem update_plan_diff_correct (o u : List (ℕ × ℤ))
    (ho : (keys o).Nodup) (hu : (keys u).Nodup) :
    (∀ i q r, (i, q, r) ∈ (stockUpdatePlan o u).1 ↔
      ∃ oq, (i, oq) ∈ o ∧
        ((lookupD u i = none ∧ q = oq ∧ r = AddReason.removedFromInvoice) ∨
         (∃ uq, (i, uq) ∈ u ∧ uq < oq ∧ q = oq - uq ∧
           r = AddReason.quantityDecreased))) ∧
    (∀ i q r, (i, q, r) ∈ (stockUpdatePlan o u).2 ↔
      ((∃ oq uq, (i, oq) ∈ o ∧ (i, uq) ∈ u ∧ oq < uq ∧ q = uq - oq ∧
         r = DeductReason.quantityIncreased) ∨
       (lookupD o i = none ∧ (i, q) ∈ u ∧ r = DeductReason.addedToInvoice))) ∧
    ((stockUpdatePlan o u).1.map (·.1)).Nodup ∧
    ((stockUpdatePlan o u).2.map (·.1)).Nodup := by
  have hplan : stockUpdatePlan o u = (itemsToAddStock o u, itemsToDeductStock o u) := by
    unfold stockUpdatePlan
    rw [pyDict_of_nodup ho, pyDict_of_nodup hu]
  rw [hplan]
  have hfadd : ∀ (p : ℕ × ℤ) (b : ℕ × ℤ × AddReason),
      (match lookupD u p.1 with
        | none => some (p.1, p.2, AddReason.removedFromInvoice)
        | some uq =>
          if 0 < p.2 - uq then some (p.1, p.2 - uq, AddReason.quantityDecreased)
          else none) = some b → b.1 = p.1 := by
    intro p b hb
    cases hlu : lookupD u p.1 with
    | none =>
        simp only [hlu] at hb
        injection hb with hb
        rw [← hb]
    | some uq =>
        simp only [hlu] at hb
        by_cases hpos : 0 < p.2 - uq
        · rw [if_pos hpos] at hb
          injection hb with hb
          rw [← hb]
        · rw [if_neg hpos] at hb
          exact Option.noConfusion hb
  have hfinc : ∀ (p : ℕ × ℤ) (b : ℕ × ℤ × DeductReason),
      (match lookupD u p.1 with
        | none => none
        | some uq =>
          if p.2 - uq < 0 then some (p.1, |p.2 - uq|, DeductReason.quantityIncreased)
          else none) = some b → b.1 = p.1 := by
    intro p b hb
    cases hlu : lookupD u p.1 with
    | none =>
        simp only [hlu] at hb
        exact Option.noConfusion hb
    | some uq =>
        simp only [hlu] at hb
        by_cases hneg : p.2 - uq < 0
        · rw [if_pos hneg] at hb
          injection hb with hb
          rw [← hb]
        · rw [if_neg hneg] at hb
          exact Option.noConfusion hb
  have hfnew : ∀ (p : ℕ × ℤ) (b : ℕ × ℤ × DeductReason),
      (if lookupD o p.1 = none then some (p.1, p.2, DeductReason.addedToInvoice)
        else none) = some b → b.1 = p.1 := by
    intro p b hb
    by_cases hno : lookupD o p.1 = none
    · rw [if_pos hno] at hb
      injection hb with hb
      rw [← hb]
    · rw [if_neg hno] at hb
      exact Option.noConfusion hb
  refine ⟨fun i q r => mem_itemsToAddStock_iff hu,
    fun i q r => mem_itemsToDeductStock_iff hu, ?_, ?_⟩
  · exact ((map_fst_filterMap_sublist _ hfadd o).nodup ho)
  · unfold itemsToDeductStock
    rw [List.map_append, List.nodup_append]
    refine ⟨(map_fst_filterMap_sublist _ hfinc o).nodup ho,
      (map_fst_filterMap_sublist _ hfnew u).nodup hu, ?_⟩
    intro a haA haB
    obtain ⟨t, htm, hta⟩ := List.mem_map.mp haA
    obtain ⟨p, hpm, hpt⟩ := List.mem_filterMap.mp htm
    obtain ⟨t2, htm2, hta2⟩ := List.mem_map.mp haB
    obtain ⟨p2, hpm2, hpt2⟩ := List.mem_filterMap.mp htm2
    have h1 : a ∈ keys o := by
      rw [← hta, hfinc p t hpt]
      exact List.mem_map_of_mem (·.1) hpm
    have h2 : lookupD o p2.1 = none := by
      by_cases hno : lookupD o p2.1 = none
      · exact hno
      · rw [if_neg hno] at hpt2
        exact Option.noConfusion hpt2
    have h3 : a ∉ keys o := by
      rw [← hta2, hfnew p2 t2 hpt2]
      exact lookupD_eq_none_iff.mp h2
    exact h3 h1

/-- Witness for C4 at the spec's own example: original `A×5` (item 1) updated
to `A×2` and `B×4` (item 2) — the plan is exactly `add(1, 3)` (quantity
decreased) and `deduct(2, 4)` (newly added). -/
theorem update_plan_diff_correct_witness :
    ((∀ i q r, (i, q, r) ∈ (stockUpdatePlan [(1, 5)] [(1, 2), (2, 4)]).1 ↔
      ∃ oq, (i, oq) ∈ [((1 : ℕ), (5 : ℤ))] ∧
        ((lookupD [(1, 2), (2, 4)] i = none ∧ q = oq ∧
           r = AddReason.removedFromInvoice) ∨
         (∃ uq, (i, uq) ∈ [((1 : ℕ), (2 : ℤ)), (2, 4)] ∧ uq < oq ∧ q = oq - uq ∧
           r = AddReason.quantityDecreased))) ∧
    (∀ i q r, (i, q, r) ∈ (stockUpdatePlan [(1, 5)] [(1, 2), (2, 4)]).2 ↔
      ((∃ oq uq, (i, oq) ∈ [((1 : ℕ), (5 : ℤ))] ∧
         (i, uq) ∈ [((1 : ℕ), (2 : ℤ)), (2, 4)] ∧ oq < uq ∧ q = uq - oq ∧
         r = DeductReason.quantityIncreased) ∨
       (lookupD [(1, 5)] i = none ∧ (i, q) ∈ [((1 : ℕ), (2 : ℤ)), (2, 4)] ∧
         r = DeductReason.addedToInvoice))) ∧
    ((stockUpdatePlan [(1, 5)] [(1, 2), (2, 4)]).1.map (·.1)).Nodup ∧
    ((stockUpdatePlan [(1, 5)] [(1, 2), (2, 4)]).2.map (·.1)).Nodup) ∧
    stockUpdatePlan [(1, 5)] [(1, 2), (2, 4)] =
      ([(1, 3, AddReason.quantityDecreased)], [(2, 4, DeductReason.addedToInvoice)]) :=
  ⟨update_plan_diff_correct [(1, 5)] [(1, 2), (2, 4)] (by decide) (by decide),
   by decide⟩

/-! ## items/models.py and the InventoryManager executor -/

/-- `StockMovement.invoice_type` / the `invoice_type` argument. -/
inductive InvoiceType where
  | retail
  | wholesale
deriving DecidableEq

/-- `StockMovement.MOVEMENT_TYPES`. -/
inductive MovementType where
  | retailSale
  | wholesaleSale
  | returnOfGoods
  | restock
  | adjustment
  | damaged
deriving DecidableEq

/-- `movement_type = f'{invoice_type}_sale'`. -/
def saleType : InvoiceType → MovementType
  | InvoiceType.retail => MovementType.retailSale
  | InvoiceType.wholesale => MovementType.wholesaleSale

/-- A row of `items.Item` (the fields the inventory manager reads and
writes). -/
structure SItem where
  id : ℕ
  quantity : ℕ
  is_active : Bool
  is_deleted : Bool
deriving DecidableEq

/-- A row of `items.StockMovement` (the audit fields). -/
structure Movement where
  item_id : ℕ
  quantity : ℤ
  movement_type : MovementType
  invoice_id : Option ℕ
deriving DecidableEq

/-- The database state the inventory manager operates on: the `Item` table
and the append-only `StockMovement` table. -/
structure Store where
  items : List SItem
  movements : List Movement
deriving DecidableEq

/-- `Item.objects.get(id=item_id, is_deleted=False)` (`none` models
`Item.DoesNotExist`). -/
def Store.findItem (s : Store) (i : ℕ) : Option SItem :=
  s.items.find? (fun it => it.id = i && !it.is_deleted)

/-- `item.quantity = q; item.save(update_fields=['quantity'])`: write the
given quantity back to the row with this id. -/
def Store.setQty (s : Store) (i : ℕ) (q : ℕ) : Store :=
  { s with items := s.items.map (fun it =>
      if it.id = i && !it.is_deleted then { it with quantity := q } else it) }

/-- One entry of the `invoice_items` argument of
`deduct_stock_for_invoice`: `item_data.get('item_id')` may be absent and
`item_data.get('quantity', 0)` is an arbitrary integer. -/
structure DeductReq where
  item_id : Option ℕ
  quantity : ℤ
deriving DecidableEq

/-- The error messages `deduct_stock_for_invoice` can collect, by shape. -/
inductive DeductErr where
  | noItemsProvided
  | missingItemId
  | invalidQuantity (quantity : ℤ) (item_id : ℕ)
  | notFound (item_id : ℕ)
  | notActive (item_id : ℕ)
  | insufficientStock (item_id : ℕ) (available : ℕ) (requested : ℤ)
deriving DecidableEq

/-- Phase-1 validation of one request, in source order: missing/falsy
`item_id`, non-positive quantity, row lookup (`DoesNotExist`), inactive item,
insufficient stock.  On success the locked row snapshot and the quantity are
queued for phase 2. -/
def checkDeductReq (s : Store) (r : DeductReq) : DeductErr ⊕ (SItem × ℤ) :=
  match r.item_id with
  | none => Sum.inl DeductErr.missingItemId
  | some iid =>
    if iid = 0 then Sum.inl DeductErr.missingItemId
    else if r.quantity ≤ 0 then Sum.inl (DeductErr.invalidQuantity r.quantity iid)
    else match s.findItem iid with
      | none => Sum.inl (DeductErr.notFound iid)
      | some it =>
        if it.is_active = false then Sum.inl (DeductErr.notActive iid)
        else if (it.quantity : ℤ) < r.quantity then
          Sum.inl (DeductErr.insufficientStock iid it.quantity r.quantity)
        else Sum.inr (it, r.quantity)

/-- The result dict of `deduct_stock_for_invoice` (`items_processed` by item
id). -/
structure DeductResult where
  success : Bool
  items_processed : List ℕ
  errors : List DeductErr
deriving DecidableEq

/-- Phase 1 of `deduct_stock_for_invoice`: validate every request against the
pre-mutation store, collecting one error per failing request (`continue`) and
queueing the snapshots of the valid ones. -/
def deductPhase1 (s : Store) (reqs : List DeductReq) :
    List DeductErr × List (SItem × ℤ) :=
  reqs.foldl (fun acc r =>
    match checkDeductReq s r with
    | Sum.inl e => (acc.1 ++ [e], acc.2)
    | Sum.inr p => (acc.1, acc.2 ++ [p])) ([], [])

/-- One phase-2 step: `item.quantity -= quantity; item.save(...)` writes the
phase-1 snapshot's quantity minus the request back to the row (a stale
snapshot if the same row was written earlier in the batch), then logs one
`StockMovement` with the negative delta. -/
def applyDeduction (ivt : InvoiceType) (invoice_id : Option ℕ) (st : Store)
    (p : SItem × ℤ) : Store :=
  let st1 := st.setQty p.1.id (p.1.quantity - p.2.toNat)
  { st1 with movements := st1.movements ++
      [⟨p.1.id, -p.2, saleType ivt, invoice_id⟩] }

/-- `InventoryManager.deduct_stock_for_invoice`: empty input is rejected;
any phase-1 validation error raises `ValidationError`, rolling back to the
original store with `success = False` and the collected errors; otherwise
phase 2 applies every queued deduction and logs one movement each. -/
def deduct_stock_for_invoice (s : Store) (reqs : List DeductReq)
    (ivt : InvoiceType) (invoice_id : Option ℕ) : DeductResult × Store :=
  if reqs.isEmpty then
    ({ success := false, items_processed := [],
       errors := [DeductErr.noItemsProvided] }, s)
  else
    let pr := deductPhase1 s reqs
    if pr.1.isEmpty = false then
      ({ success := false, items_processed := [], errors := pr.1 }, s)
    else
      ({ success := true, items_processed := pr.2.map (fun p => p.1.id),
         errors := [] },
       pr.2.foldl (applyDeduction ivt invoice_id) s)

/-! ## Claim C8 -/

/-- One item (id 1) with 10 units in stock and an empty movement log. -/
def storeC8 : Store := { items := [⟨1, 10, true, false⟩], movements := [] }

/-- A single invoice batch that lists item 1 on two rows (2 and 3 units). -/
def reqsC8 : List DeductReq := [⟨some 1, 2⟩, ⟨some 1, 3⟩]

/-- C8: evaluating `deduct_stock_for_invoice` on a batch that repeats an
item id shows the movement-sum invariant broken: the call succeeds, logs
movements of −2 and −3 (sum −5), but leaves the stock at 7 — a net change of
only −3, because the second `save` writes its stale phase-1 snapshot
(10 − 3) over the first deduction.  `Σ StockMovement.quantity` (−5) no longer
equals `current_quantity - initial_quantity` (−3). -/
theorem stock_movement_sum_mismatch :
    (deduct_stock_for_invoice storeC8 reqsC8 InvoiceType.retail (some 7)).1.success
      = true ∧
    ((deduct_stock_for_invoice storeC8 reqsC8 InvoiceType.retail (some 7)).2.findItem 1).map
      (fun it => it.quantity) = some 7 ∧
    (((deduct_stock_for_invoice storeC8 reqsC8 InvoiceType.retail (some 7)).2.movements).map
      (fun m => m.quantity)).sum = -5 ∧
    ((7 : ℤ) - 10 = -3) ∧ ((-5 : ℤ) ≠ -3) := by
  refine ⟨by decide, by decide, by decide, by decide, by decide⟩

/-! ## Claim C5 -/

theorem deductPhase1_eq (s : Store) (reqs : List DeductReq) :
    deductPhase1 s reqs =
      (reqs.filterMap (fun r => (checkDeductReq s r).getLeft?),
       reqs.filterMap (fun r => (checkDeductReq s r).getRight?)) := by
  suffices h : ∀ (l : List DeductReq) (accE : List DeductErr) (accQ : List (SItem × ℤ)),
      l.foldl (fun acc r => match checkDeductReq s r with
        | Sum.inl e => (acc.1 ++ [e], acc.2)
        | Sum.inr p => (acc.1, acc.2 ++ [p])) (accE, accQ) =
      (accE ++ l.filterMap (fun r => (checkDeductReq s r).getLeft?),
       accQ ++ l.filterMap (fun r => (checkDeductReq s r).getRight?)) by
    have h2 := h reqs [] []
    simpa [deductPhase1] using h2
  intro l
  induction l with
  | nil =>
      intro accE accQ
      simp
  | cons r t ih =>
      intro accE accQ
      rw [List.foldl_cons]
      cases hc : checkDeductReq s r with
      | inl e =>
          have hL : (checkDeductReq s r).getLeft? = some e := by rw [hc]; rfl
          have hR : (checkDeductReq s r).getRight? = none := by rw [hc]; rfl
          simp only [hc]
          rw [ih]
          simp only [List.filterMap_cons, hL, hR]
          simp
      | inr p =>
          have hL : (checkDeductReq s r).getLeft? = none := by rw [hc]; rfl
          have hR : (checkDeductReq s r).getRight? = some p := by rw [hc]; rfl
          simp only [hc]
          rw [ih]
          simp only [List.filterMap_cons, hL, hR]
          simp

theorem applyQueue_movements (ivt : InvoiceType) (iid : Option ℕ) :
    ∀ (queue : List (SItem × ℤ)) (s : Store),
      (queue.foldl (applyDeduction ivt iid) s).movements =
        s.movements ++ queue.map (fun p => ⟨p.1.id, -p.2, saleType ivt, iid⟩) := by
  intro queue
  induction queue with
  | nil =>
      intro s
      simp
  | cons p t ih =>
      intro s
      rw [List.foldl_cons, ih]
      simp [applyDeduction, Store.setQty]

theorem findItem_setQty_ne {s : Store} {i j : ℕ} (h : i ≠ j) (q : ℕ) :
    (s.setQty j q).findItem i = s.findItem i := by
  unfold Store.findItem Store.setQty
  rw [List.find?_map]
  have hpf : ((fun it => it.id = i && !it.is_deleted) ∘
      (fun it => if it.id = j && !it.is_deleted then { it with quantity := q } else it)) =
      (fun (it : SItem) => it.id = i && !it.is_deleted) := by
    funext it
    by_cases hc : (it.id = j && !it.is_deleted) = true
    · simp only [Function.comp_apply, if_pos hc]
    · simp only [Function.comp_apply, if_neg hc]
  rw [hpf]
  cases hf : List.find? (fun it => it.id = i && !it.is_deleted) s.items with
  | none => rfl
  | some it =>
      have hp := List.find?_some hf
      simp only [Bool.and_eq_true, decide_eq_true_eq] at hp
      simp only [Option.map_some']
      have hcond : ¬ ((it.id = j && !it.is_deleted) = true) := by
        simp only [Bool.and_eq_true, decide_eq_true_eq]
        rintro ⟨hij, -⟩
        exact h (by rw [← hp.1, hij])
      rw [if_neg hcond]

theorem findItem_setQty_self {s : Store} {j : ℕ} (q : ℕ) :
    (s.setQty j q).findItem j = (s.findItem j).map
      (fun it => { it with quantity := q }) := by
  unfold Store.findItem Store.setQty
  rw [List.find?_map]
  have hpf : ((fun it => it.id = j && !it.is_deleted) ∘
      (fun it => if it.id = j && !it.is_deleted then { it with quantity := q } else it)) =
      (fun (it : SItem) => it.id = j && !it.is_deleted) := by
    funext it
    by_cases hc : (it.id = j && !it.is_deleted) = true
    · simp only [Function.comp_apply, if_pos hc]
    · simp only [Function.comp_apply, if_neg hc]
  rw [hpf]
  cases hf : List.find? (fun it => it.id = j && !it.is_deleted) s.items with
  | none => rfl
  | some it =>
      have hp := List.find?_some hf
      simp only [Option.map_some']
      rw [if_pos hp]

theorem findItem_applyDeduction_ne {ivt : InvoiceType} {iid : Option ℕ}
    {st : Store} {p : SItem × ℤ} {i : ℕ} (h : i ≠ p.1.id) :
    (applyDeduction ivt iid st p).findItem i = st.findItem i := by
  unfold applyDeduction
  show (Store.setQty st p.1.id (p.1.quantity - p.2.toNat)).findItem i = st.findItem i
  exact findItem_setQty_ne h _

theorem applyQueue_findItem_not_mem (ivt : InvoiceType) (iid : Option ℕ) :
    ∀ (queue : List (SItem × ℤ)) (s : Store) (i : ℕ),
      i ∉ queue.map (fun p => p.1.id) →
      (queue.foldl (applyDeduction ivt iid) s).findItem i = s.findItem i := by
  intro queue
  induction queue with
  | nil =>
      intro s i _
      rfl
  | cons p t ih =>
      intro s i hni
      rw [List.map_cons, List.mem_cons, not_or] at hni
      rw [List.foldl_cons, ih _ _ hni.2, findItem_applyDeduction_ne hni.1]

theorem applyQueue_findItem (ivt : InvoiceType) (iid : Option ℕ) :
    ∀ (queue : List (SItem × ℤ)) (s : Store),
      (queue.map (fun p => p.1.id)).Nodup →
      ∀ p ∈ queue,
        (queue.foldl (applyDeduction ivt iid) s).findItem p.1.id =
          (s.findItem p.1.id).map
            (fun it => { it with quantity := p.1.quantity - p.2.toNat }) := by
  intro queue
  induction queue with
  | nil =>
      intro s _ p hp
      exact absurd hp (List.not_mem_nil p)
  | cons p0 t ih =>
      intro s hnd p hp
      rw [List.map_cons, List.nodup_cons] at hnd
      rcases List.mem_cons.mp hp with h1 | h2
      · subst h1
        rw [List.foldl_cons,
          applyQueue_findItem_not_mem ivt iid t _ p.1.id hnd.1]
        unfold applyDeduction
        show (Store.setQty s p.1.id (p.1.quantity - p.2.toNat)).findItem p.1.id = _
        exact findItem_setQty_self _
      · have hne : p.1.id ≠ p0.1.id := by
          intro he
          exact hnd.1 (he ▸ List.mem_map_of_mem (fun x => x.1.id) h2)
        rw [List.foldl_cons, ih _ hnd.2 p h2, findItem_applyDeduction_ne hne]

theorem checkDeductReq_inr_spec {s : Store} {r : DeductReq} {it : SItem} {q : ℤ}
    (h : checkDeductReq s r = Sum.inr (it, q)) :
    r.item_id = some it.id ∧ s.findItem it.id = some it ∧ 0 < q ∧
      q ≤ (it.quantity : ℤ) ∧ q = r.quantity := by
  unfold checkDeductReq at h
  cases hr : r.item_id with
  | none =>
      rw [hr] at h
      simp at h
  | some iid =>
      rw [hr] at h
      simp only at h
      by_cases h0 : iid = 0
      · rw [if_pos h0] at h
        simp at h
      · rw [if_neg h0] at h
        by_cases hq : r.quantity ≤ 0
        · rw [if_pos hq] at h
          simp at h
        · rw [if_neg hq] at h
          cases hf : s.findItem iid with
          | none =>
              rw [hf] at h
              simp at h
          | some it2 =>
              rw [hf] at h
              simp only at h
              by_cases ha : it2.is_active = false
              · rw [if_pos ha] at h
                simp at h
              · rw [if_neg ha] at h
                by_cases hs : (it2.quantity : ℤ) < r.quantity
                · rw [if_pos hs] at h
                  simp at h
                · rw [if_neg hs] at h
                  simp only [Sum.inr.injEq, Prod.mk.injEq] at h
                  obtain ⟨h1, h2⟩ := h
                  have hps := List.find?_some hf
                  simp only [Bool.and_eq_true, decide_eq_true_eq] at hps
                  refine ⟨?_, ?_, by omega, ?_, h2.symm⟩
                  · rw [← h1, hps.1]
                  · rw [← h1, hps.1]
                    exact hf
                  · rw [← h1]
                    omega

theorem queue_ids_sublist (s : Store) (reqs : List DeductReq) :
    (((deductPhase1 s reqs).2).map (fun p => p.1.id)).Sublist
      (reqs.filterMap (fun r => r.item_id)) := by
  rw [deductPhase1_eq]
  induction reqs with
  | nil => simp
  | cons r t ih =>
      cases hc : checkDeductReq s r with
      | inl e =>
          simp only [List.filterMap_cons, hc, Sum.getLeft?, Sum.getRight?]
          cases r.item_id with
          | none => exact ih
          | some iid => exact ih.cons iid
      | inr p =>
          have hspec := @checkDeductReq_inr_spec s r p.1 p.2 (by rw [hc])
          simp only [List.filterMap_cons, hc, Sum.getLeft?, Sum.getRight?, hspec.1,
            List.map_cons]
          exact ih.cons₂ p.1.id

theorem mem_queue_spec {s : Store} {reqs : List DeductReq} {p : SItem × ℤ}
    (hp : p ∈ (deductPhase1 s reqs).2) :
    s.findItem p.1.id = some p.1 ∧ 0 < p.2 ∧ p.2 ≤ (p.1.quantity : ℤ) := by
  rw [deductPhase1_eq] at hp
  obtain ⟨r, _, hcr⟩ := List.mem_filterMap.mp hp
  have hc : checkDeductReq s r = Sum.inr p := by
    cases hcc : checkDeductReq s r with
    | inl e =>
        rw [hcc] at hcr
        exact absurd hcr (by simp [Sum.getRight?])
    | inr p2 =>
        rw [hcc] at hcr
        simp only [Sum.getRight?, Option.some.injEq] at hcr
        rw [hcr]
  have hspec := @checkDeductReq_inr_spec s r p.1 p.2 hc
  exact ⟨hspec.2.1, hspec.2.2.1, hspec.2.2.2.1⟩

/-- C5: `deduct_stock_for_invoice` is all-or-nothing with batched errors.
For a non-empty batch: the call fails exactly when some request fails phase-1
validation (missing id, non-positive quantity, item not found / deleted,
inactive item, or insufficient stock); on failure the store is unchanged (no
quantity change, no `StockMovement`) and the error list carries exactly one
entry, with its specific reason, per failing request in order; when every
request validates the call succeeds, appends one movement per request, and —
for a batch with distinct item ids — deducts each item's stock by exactly the
requested quantity. -/
theorem deduct_batch_all_or_nothing (s : Store) (reqs : List DeductReq)
    (ivt : InvoiceType) (invoice_id : Option ℕ) (hne : reqs ≠ []) :
    ((deduct_stock_for_invoice s reqs ivt invoice_id).1.success = false ↔
      ∃ r ∈ reqs, (checkDeductReq s r).getLeft? ≠ none) ∧
    ((∃ r ∈ reqs, (checkDeductReq s r).getLeft? ≠ none) →
      (deduct_stock_for_invoice s reqs ivt invoice_id).2 = s ∧
      (deduct_stock_for_invoice s reqs ivt invoice_id).1.errors =
        reqs.filterMap (fun r => (checkDeductReq s r).getLeft?)) ∧
    ((∀ r ∈ reqs, (checkDeductReq s r).getLeft? = none) →
      (deduct_stock_for_invoice s reqs ivt invoice_id).1.success = true ∧
      (deduct_stock_for_invoice s reqs ivt invoice_id).1.errors = [] ∧
      (deduct_stock_for_invoice s reqs ivt invoice_id).2.movements =
        s.movements ++ (deductPhase1 s reqs).2.map
          (fun p => ⟨p.1.id, -p.2, saleType ivt, invoice_id⟩) ∧
      ((reqs.filterMap (fun r => r.item_id)).Nodup →
        ∀ p ∈ (deductPhase1 s reqs).2,
          (deduct_stock_for_invoice s reqs ivt invoice_id).2.findItem p.1.id =
            some { p.1 with quantity := p.1.quantity - p.2.toNat })) := by
  have hnempty : reqs.isEmpty = false := by
    cases reqs with
    | nil => exact absurd rfl hne
    | cons a t => rfl
  have hp1 : (deductPhase1 s reqs).1 =
      reqs.filterMap (fun r => (checkDeductReq s r).getLeft?) := by
    rw [deductPhase1_eq]
  by_cases hfail : ∃ r ∈ reqs, (checkDeductReq s r).getLeft? ≠ none
  · have hEne : (deductPhase1 s reqs).1 ≠ [] := by
      rw [hp1]
      intro hnil
      rw [List.filterMap_eq_nil_iff] at hnil
      obtain ⟨r, hr, hne2⟩ := hfail
      exact hne2 (hnil r hr)
    have hEb : (deductPhase1 s reqs).1.isEmpty = false := by
      cases hE2 : (deductPhase1 s reqs).1 with
      | nil => exact absurd hE2 hEne
      | cons a t => rfl
    have hD : deduct_stock_for_invoice s reqs ivt invoice_id =
        ({ success := false, items_processed := [],
           errors := (deductPhase1 s reqs).1 }, s) := by
      simp [deduct_stock_for_invoice, hnempty, hEb]
    refine ⟨?_, fun _ => ⟨by rw [hD], by rw [hD, hp1]⟩, ?_⟩
    · rw [hD]
      simp only [true_iff, iff_true]
      exact hfail
    · intro hall
      exfalso
      obtain ⟨r, hr, hne2⟩ := hfail
      exact hne2 (hall r hr)
  · push_neg at hfail
    have hEnil : (deductPhase1 s reqs).1 = [] := by
      rw [hp1, List.filterMap_eq_nil_iff]
      exact hfail
    have hD : deduct_stock_for_invoice s reqs ivt invoice_id =
        ({ success := true,
           items_processed := (deductPhase1 s reqs).2.map (fun p => p.1.id),
           errors := [] },
         (deductPhase1 s reqs).2.foldl (applyDeduction ivt invoice_id) s) := by
      simp [deduct_stock_for_invoice, hnempty, hEnil]
    refine ⟨?_, ?_, ?_⟩
    · rw [hD]
      simp only [Bool.true_eq_false, false_iff]
      intro hex
      obtain ⟨r, hr, hne2⟩ := hex
      exact hne2 (hfail r hr)
    · intro hex
      exfalso
      obtain ⟨r, hr, hne2⟩ := hex
      exact hne2 (hfail r hr)
    · intro _
      refine ⟨by rw [hD], by rw [hD], ?_, ?_⟩
      · rw [hD]
        exact applyQueue_movements ivt invoice_id _ s
      · intro hnodupids p hp
        have hqnodup : (((deductPhase1 s reqs).2).map (fun p => p.1.id)).Nodup :=
          (queue_ids_sublist s reqs).nodup hnodupids
        have hfind := applyQueue_findItem ivt invoice_id (deductPhase1 s reqs).2 s
          hqnodup p hp
        rw [hD]
        show ((deductPhase1 s reqs).2.foldl (applyDeduction ivt invoice_id) s).findItem
            p.1.id = _
        rw [hfind, (mem_queue_spec hp).1]
        rfl

/-- A store and batch for the C5 witness: item 1 exists with stock 5, and the
batch asks for item 1 (3 units, valid) and item 2 (not found). -/
def storeC5w : Store := { items := [⟨1, 5, true, false⟩], movements := [] }

/-- The witness batch for C5. -/
def reqsC5w : List DeductReq := [⟨some 1, 3⟩, ⟨some 2, 1⟩]

/-- Witness for C5 at a concrete failing batch: the store is untouched and
the error list is exactly the per-request failure list. -/
theorem deduct_batch_all_or_nothing_witness :
    reqsC5w ≠ [] ∧
    ((deduct_stock_for_invoice storeC5w reqsC5w InvoiceType.retail (some 3)).2 =
      storeC5w ∧
     (deduct_stock_for_invoice storeC5w reqsC5w InvoiceType.retail (some 3)).1.errors =
       reqsC5w.filterMap (fun r => (checkDeductReq storeC5w r).getLeft?)) :=
  ⟨by decide,
   (deduct_batch_all_or_nothing storeC5w reqsC5w InvoiceType.retail (some 3)
      (by decide)).2.1 ⟨⟨some 2, 1⟩, by decide, by decide⟩⟩

/-! ## Claim C9 -/

/-- Half of the available stock plus one, the request size of the spec's
concurrency scenario. -/
def halfPlusOne (n : ℕ) : ℤ := ((n / 2 : ℕ) : ℤ) + 1

/-- C9.  Modelled from the spec: §5 states that two concurrent transactions
on the same item serialize on the exclusive row lock (`select_for_update`)
taken before the stock read, so a concurrent pair of deduct requests executes
as one of the two serial orders; with both requests asking for the same
`half + 1` quantity the two serial orders are the same composition, proved
here.  For an active item with at least one unit in stock, the first
serialized deduction succeeds and the second fails with exactly an
insufficient-stock error — one success and one failure, never two
successes (overselling) and never two failures. -/
theorem concurrent_deduct_exactly_one (s : Store) (iid : ℕ) (it : SItem)
    (h0 : iid ≠ 0) (hfind : s.findItem iid = some it)
    (hact : it.is_active = true) (hq : 1 ≤ it.quantity) :
    (deduct_stock_for_invoice s [⟨some iid, halfPlusOne it.quantity⟩]
       InvoiceType.retail none).1.success = true ∧
    (deduct_stock_for_invoice
       (deduct_stock_for_invoice s [⟨some iid, halfPlusOne it.quantity⟩]
          InvoiceType.retail none).2
       [⟨some iid, halfPlusOne it.quantity⟩] InvoiceType.retail none).1.success
      = false ∧
    (deduct_stock_for_invoice
       (deduct_stock_for_invoice s [⟨some iid, halfPlusOne it.quantity⟩]
          InvoiceType.retail none).2
       [⟨some iid, halfPlusOne it.quantity⟩] InvoiceType.retail none).1.errors =
      [DeductErr.insufficientStock iid
        (it.quantity - (halfPlusOne it.quantity).toNat) (halfPlusOne it.quantity)] := by
  have hps := List.find?_some hfind
  simp only [Bool.and_eq_true, decide_eq_true_eq] at hps
  have hid : it.id = iid := hps.1
  have hqpos : ¬ (halfPlusOne it.quantity ≤ 0) := by
    unfold halfPlusOne
    omega
  have hstock : ¬ ((it.quantity : ℤ) < halfPlusOne it.quantity) := by
    unfold halfPlusOne
    omega
  have hc1 : checkDeductReq s ⟨some iid, halfPlusOne it.quantity⟩ =
      Sum.inr (it, halfPlusOne it.quantity) := by
    simp [checkDeductReq, hfind, h0, hqpos, hstock, hact]
  have hsucc1 : (deduct_stock_for_invoice s [⟨some iid, halfPlusOne it.quantity⟩]
      InvoiceType.retail none).1.success = true := by
    simp [deduct_stock_for_invoice, deductPhase1, hc1]
  have hstore1 : (deduct_stock_for_invoice s [⟨some iid, halfPlusOne it.quantity⟩]
      InvoiceType.retail none).2 =
      applyDeduction InvoiceType.retail none s (it, halfPlusOne it.quantity) := by
    simp [deduct_stock_for_invoice, deductPhase1, hc1]
  have hmv : ∀ (st : Store) (m : List Movement) (i : ℕ),
      ({ st with movements := m } : Store).findItem i = st.findItem i :=
    fun _ _ _ => rfl
  set st1 := (deduct_stock_for_invoice s [⟨some iid, halfPlusOne it.quantity⟩]
      InvoiceType.retail none).2 with hst1
  have hf2 : st1.findItem iid =
      some { it with quantity := it.quantity - (halfPlusOne it.quantity).toNat } := by
    rw [hstore1]
    unfold applyDeduction
    rw [hmv]
    show (s.setQty it.id (it.quantity - (halfPlusOne it.quantity).toNat)).findItem iid
      = _
    rw [hid, findItem_setQty_self, hfind]
    simp [Option.map_some, hid]
  have hstock2 : ((it.quantity - (halfPlusOne it.quantity).toNat : ℕ) : ℤ) <
      halfPlusOne it.quantity := by
    unfold halfPlusOne
    omega
  have hc2 : checkDeductReq st1 ⟨some iid, halfPlusOne it.quantity⟩ =
      Sum.inl (DeductErr.insufficientStock iid
        (it.quantity - (halfPlusOne it.quantity).toNat) (halfPlusOne it.quantity)) := by
    simp [checkDeductReq, hf2, h0, hqpos, hact, hstock2]
  refine ⟨hsucc1, ?_, ?_⟩ <;>
    simp [deduct_stock_for_invoice, deductPhase1, hc2]

/-- A concrete store for the C9 witness: item 1, stock 10, active. -/
def storeC9w : Store := { items := [⟨1, 10, true, false⟩], movements := [] }

/-- Witness for C9 at item 1 with 10 units: each request asks for 6; the
first succeeds and the second fails with insufficient stock (4 < 6). -/
theorem concurrent_deduct_exactly_one_witness :
    (deduct_stock_for_invoice storeC9w [⟨some 1, halfPlusOne 10⟩]
       InvoiceType.retail none).1.success = true ∧
    (deduct_stock_for_invoice
       (deduct_stock_for_invoice storeC9w [⟨some 1, halfPlusOne 10⟩]
          InvoiceType.retail none).2
       [⟨some 1, halfPlusOne 10⟩] InvoiceType.retail none).1.success = false ∧
    (deduct_stock_for_invoice
       (deduct_stock_for_invoice storeC9w [⟨some 1, halfPlusOne 10⟩]
          InvoiceType.retail none).2
       [⟨some 1, halfPlusOne 10⟩] InvoiceType.retail none).1.errors =
      [DeductErr.insufficientStock 1 (10 - (halfPlusOne 10).toNat) (halfPlusOne 10)] :=
  concurrent_deduct_exactly_one storeC9w 1 ⟨1, 10, true, false⟩
    (by decide) (by decide) rfl (by decide)

end DarbarBoots
